import Mathlib

/-!
Shallow embedding of the DynDNS-to-Cloudflare proxy (`main.go`) and proofs
of the specification claims about its update-reconciliation handler.

Go strings are modelled as `List Char` (all separators handled by this
program are single ASCII characters, for which byte-wise and rune-wise
splitting agree); the Basic-Auth machinery, which passes through base64 and
compares raw bytes, is modelled at the byte level as `List Nat`.
-/

set_option autoImplicit false

namespace DynDNS

/-- Go strings, viewed as lists of characters. -/
abbrev Str := List Char

/-- Coerce a Lean string literal into the `Str` model. -/
def str (s : String) : Str := s.data

/-- The set of code points trimmed by Go's `strings.TrimSpace`
(`unicode.IsSpace`). -/
def isGoSpace (c : Char) : Bool :=
  let n := c.toNat
  n = 0x9 || n = 0xA || n = 0xB || n = 0xC || n = 0xD || n = 0x20 ||
  n = 0x85 || n = 0xA0 || n = 0x1680 || (0x2000 ≤ n && n ≤ 0x200A) ||
  n = 0x2028 || n = 0x2029 || n = 0x202F || n = 0x205F || n = 0x3000

/-- Embeds Go's `strings.TrimSpace`: drop leading and trailing whitespace. -/
def goTrimSpace (s : Str) : Str :=
  ((s.dropWhile isGoSpace).reverse.dropWhile isGoSpace).reverse

/-- Embeds the tail of `getClientIP` (main.go): `strings.LastIndex(ip, ":")`
followed by truncation — if a colon occurs, keep everything before the last
colon, otherwise return the string unchanged. -/
def trimPortSuffix (s : Str) : Str :=
  match s.reverse.dropWhile (fun c => c != ':') with
  | [] => s
  | _ :: rest => rest.reverse

/-- Embeds `isValidIP` (main.go): split on `.`; with exactly four parts the
string is accepted iff no part is empty, otherwise it is accepted iff it
contains a colon. -/
def isValidIP (ip : Str) : Bool :=
  let parts := ip.splitOn '.'
  if parts.length = 4 then
    parts.all (fun p => !p.isEmpty)
  else
    ip.contains ':'

/-- Modelled from the spec wording of the address-syntax claim, for
comparison with `isValidIP`: accepted when the string decomposes into
exactly four dot-separated non-empty segments OR (unconditionally) when it
contains a colon. -/
def specValidIP (ip : Str) : Bool :=
  ((ip.splitOn '.').length == 4 && (ip.splitOn '.').all (fun p => !p.isEmpty)) ||
    ip.contains ':'

/-- Embeds `getClientIP` (main.go): X-Forwarded-For first entry trimmed,
then X-Real-IP verbatim, then RemoteAddr with the port suffix stripped.
Absent headers are the empty string, as returned by Go's `Header.Get`. -/
def getClientIP (forwarded realIP remoteAddr : Str) : Str :=
  if forwarded ≠ [] then
    goTrimSpace ((forwarded.splitOn ',').headD [])
  else if realIP ≠ [] then
    realIP
  else
    trimPortSuffix remoteAddr

/-- Value of a base64 digit byte in the standard alphabet
(`encoding/base64.StdEncoding`), `none` for anything that is not a digit
(including the padding byte 61, `=`). -/
def b64Index (c : Nat) : Option Nat :=
  if 65 ≤ c ∧ c ≤ 90 then some (c - 65)
  else if 97 ≤ c ∧ c ≤ 122 then some (c - 97 + 26)
  else if 48 ≤ c ∧ c ≤ 57 then some (c - 48 + 52)
  else if c = 43 then some 62
  else if c = 47 then some 63
  else none

/-- Byte of the standard-alphabet base64 digit for a 6-bit value. -/
def b64Char (n : Nat) : Nat :=
  if n < 26 then 65 + n
  else if n < 52 then 97 + (n - 26)
  else if n < 62 then 48 + (n - 52)
  else if n = 62 then 43
  else 47

/-- Embeds Go's `base64.StdEncoding` encoder on raw bytes: groups of three
bytes become four digits; a trailing group of one or two bytes is padded
with `=` (byte 61). -/
def base64Encode : List Nat → List Nat
  | [] => []
  | [b1] => [b64Char (b1 / 4), b64Char (b1 % 4 * 16), 61, 61]
  | [b1, b2] =>
      [b64Char (b1 / 4), b64Char (b1 % 4 * 16 + b2 / 16), b64Char (b2 % 16 * 4), 61]
  | b1 :: b2 :: b3 :: rest =>
      b64Char (b1 / 4) :: b64Char (b1 % 4 * 16 + b2 / 16) ::
      b64Char (b2 % 16 * 4 + b3 / 64) :: b64Char (b3 % 64) ::
      base64Encode rest

/-- Decodes newline-free base64 input four digits at a time, mirroring
Go's `decodeQuantum`: `=` is only legal in the last quantum, at positions
two (`xx==`) or three (`xxx=`), with nothing after it; any other
non-digit, or a trailing group shorter than four, is an error. -/
def b64DecodeChunks : List Nat → Option (List Nat)
  | [] => some []
  | c1 :: c2 :: c3 :: c4 :: rest =>
    match b64Index c1, b64Index c2 with
    | some a, some b =>
      if c3 = 61 then
        if c4 = 61 ∧ rest = [] then some [a * 4 + b / 16] else none
      else
        match b64Index c3 with
        | some x =>
          if c4 = 61 then
            if rest = [] then some [a * 4 + b / 16, b % 16 * 16 + x / 4] else none
          else
            match b64Index c4, b64DecodeChunks rest with
            | some y, some ds =>
                some ((a * 4 + b / 16) :: (b % 16 * 16 + x / 4) :: (x % 4 * 64 + y) :: ds)
            | _, _ => none
        | none => none
    | _, _ => none
  | _ => none

/-- Embeds `base64.StdEncoding.DecodeString`: carriage returns and newlines
are ignored wherever they occur, then the input is decoded in quanta of
four digits with mandatory padding. -/
def base64Decode (bs : List Nat) : Option (List Nat) :=
  b64DecodeChunks (bs.filter (fun c => !(c == 13 || c == 10)))

/-- Splits a byte string at the first colon (byte 58), mirroring
`strings.SplitN(credentials, ":", 2)`: `none` when there is no colon (Go
then returns a one-element slice and `checkBasicAuth` rejects). -/
def splitFirstColon : List Nat → Option (List Nat × List Nat)
  | [] => none
  | b :: rest =>
    if b = 58 then some ([], rest)
    else
      match splitFirstColon rest with
      | some (l, r) => some (b :: l, r)
      | none => none

/-- The bytes of the `"Basic "` scheme marker checked by `checkBasicAuth`. -/
def basicScheme : List Nat := [66, 97, 115, 105, 99, 32]

/-- The UTF-8 encoding of one code point. -/
def charUTF8 (c : Char) : List Nat :=
  let n := c.toNat
  if n < 0x80 then [n]
  else if n < 0x800 then [0xC0 + n / 64, 0x80 + n % 64]
  else if n < 0x10000 then [0xE0 + n / 4096, 0x80 + n / 64 % 64, 0x80 + n % 64]
  else [0xF0 + n / 262144, 0x80 + n / 4096 % 64, 0x80 + n / 64 % 64, 0x80 + n % 64]

/-- The UTF-8 bytes of a string, for moving between the two string models. -/
def strBytes (s : String) : List Nat := (s.data.map charUTF8).flatten

/-- Application configuration; only the fields read by the update handler
are carried (the provider token, zone id and port are consumed by `main`
and the real client, outside the handler under verification). Credentials
are kept as raw bytes because `checkBasicAuth` compares them byte-wise
against base64-decoded input. -/
structure Config where
  basicAuthUsername : List Nat
  basicAuthPassword : List Nat
deriving DecidableEq, Repr

/-- Embeds `checkBasicAuth` (main.go): require a non-empty Authorization
header, the `"Basic "` scheme, well-formed base64, a colon in the decoded
credentials, and an exact match of both halves against the configuration. -/
def checkBasicAuth (cfg : Config) (auth : List Nat) : Bool :=
  if auth = [] then false
  else if ¬ basicScheme.isPrefixOf auth then false
  else
    match base64Decode (auth.drop 6) with
    | none => false
    | some credentials =>
      match splitFirstColon credentials with
      | none => false
      | some (u, p) => u == cfg.basicAuthUsername && p == cfg.basicAuthPassword

/-- Go `error` values produced by the DNS provider client, distinguished the
way the spec's taxonomy does; the handler never inspects them beyond
nil-ness. -/
inductive GoError where
  | notFound (hostname : Str)
  | providerErr (msg : Str)
  | transport (msg : Str)
deriving DecidableEq, Repr

/-- An inbound update request as the handler observes it: the two query
parameters, the Authorization header (raw bytes, `[]` when absent), the two
IP-derivation headers and the connection peer address. Absent parameters
and headers are the empty string, as in Go. -/
structure Request where
  hostname : Str
  myip : Str
  authorization : List Nat
  xForwardedFor : Str
  xRealIP : Str
  remoteAddr : Str
deriving Repr

/-- A CloudflareClient implementation, as the handler sees it through the
interface: what `GetDNSRecord hostname` returns (record id and content on
success), and what `UpdateDNSRecord recordID hostname ip` returns (`none`
for nil error). -/
structure ClientBehavior where
  fetch : Str → Except GoError (Str × Str)
  update : Str → Str → Str → Option GoError

/-- What one call of `handleDynDNSUpdate` produces: the HTTP status and
body written, plus the observable provider traffic — how many fetches were
issued and the argument triples of the update calls, in order. -/
structure HandlerResult where
  status : Nat
  body : Str
  fetchCalls : Nat
  updateCalls : List (Str × Str × Str)
deriving DecidableEq, Repr

/-- The target address of a request: `myip` when supplied, otherwise the
client IP derived from headers and peer address (main.go lines 155-158). -/
def resolveAddress (req : Request) : Str :=
  if req.myip = [] then
    getClientIP req.xForwardedFor req.xRealIP req.remoteAddr
  else
    req.myip

/-- The update handler after the authentication gate (main.go lines
146-194): hostname check, address resolution and validation, fetch,
compare, conditional update, response rendering. -/
def afterAuth (req : Request) (client : ClientBehavior) : HandlerResult :=
  if req.hostname = [] then
    ⟨400, str "notfqdn", 0, []⟩
  else if isValidIP (resolveAddress req) = false then
    ⟨400, str "badip", 0, []⟩
  else
    match client.fetch req.hostname with
    | Except.error _ => ⟨500, str "911", 1, []⟩
    | Except.ok (recordID, currentIP) =>
      if currentIP = resolveAddress req then
        ⟨200, str "nochg " ++ resolveAddress req, 1, []⟩
      else
        match client.update recordID req.hostname (resolveAddress req) with
        | some _ =>
            ⟨500, str "911", 1, [(recordID, req.hostname, resolveAddress req)]⟩
        | none =>
            ⟨200, str "good " ++ resolveAddress req, 1,
              [(recordID, req.hostname, resolveAddress req)]⟩

/-- Embeds `handleDynDNSUpdate` (main.go): when both configured credentials
are non-empty the Basic-Auth check guards everything; otherwise the gate is
skipped. -/
def handleDynDNSUpdate (cfg : Config) (req : Request) (client : ClientBehavior) :
    HandlerResult :=
  if cfg.basicAuthUsername ≠ [] ∧ cfg.basicAuthPassword ≠ [] then
    if checkBasicAuth cfg req.authorization = false then
      ⟨401, str "badauth", 0, []⟩
    else
      afterAuth req client
  else
    afterAuth req client

/-- A request clears the authentication gate: either authentication is not
configured, or the presented credentials check out. -/
def authPasses (cfg : Config) (req : Request) : Prop :=
  cfg.basicAuthUsername = [] ∨ cfg.basicAuthPassword = [] ∨
    checkBasicAuth cfg req.authorization = true

/-- One error object of a Cloudflare API response envelope. -/
structure CloudflareError where
  code : Int
  message : Str
deriving DecidableEq, Repr

/-- One DNS record of a Cloudflare API response; the metadata fields the
program never reads (timestamps, tags, meta, settings) are omitted. -/
structure CloudflareDNSRecord where
  id : Str
  name : Str
  content : Str
  ttl : Int
  proxied : Bool
deriving DecidableEq, Repr

/-- The Cloudflare list-records response envelope, as unmarshalled by
`GetDNSRecord` (messages are never read and are omitted). -/
structure CloudflareListResponse where
  success : Bool
  errors : List CloudflareError
  result : List CloudflareDNSRecord
deriving DecidableEq, Repr

/-- Embeds the decision logic of `RealCloudflareClient.GetDNSRecord`
(main.go lines 262-304) on an unmarshalled response: a non-success envelope
is a provider error (quoting the first error message when present), an
empty result list is not-found, and otherwise the first record's id and
content are returned. -/
def GetDNSRecord (hostname : Str) (resp : CloudflareListResponse) :
    Except GoError (Str × Str) :=
  if resp.success = false then
    Except.error (GoError.providerErr
      (match resp.errors with
       | e :: _ => str "cloudflare API error: " ++ e.message
       | [] => str "cloudflare API returned error"))
  else
    match resp.result with
    | [] => Except.error (GoError.notFound hostname)
    | r :: _ => Except.ok (r.id, r.content)

/-- When the authentication gate is cleared — either because a configured
credential is empty or because the check succeeds — the handler proceeds to
the post-authentication pipeline. -/
theorem handle_eq_afterAuth (cfg : Config) (req : Request) (client : ClientBehavior)
    (h : authPasses cfg req) :
    handleDynDNSUpdate cfg req client = afterAuth req client := by
  unfold handleDynDNSUpdate
  split
  · next hc =>
    obtain ⟨hu, hp⟩ := hc
    rcases h with h | h | h
    · exact absurd h hu
    · exact absurd h hp
    · simp [h]
  · rfl

/-- Claim C1: for every update request that passes authentication and
validation, if the address fetched from the provider equals the target
address by exact string equality, the handler responds `nochg <address>`
with HTTP status 200 and issues no update call to the DNS Provider
Client. -/
theorem claim_c1_nochg_without_update
    (cfg : Config) (req : Request) (client : ClientBehavior) (rid : Str)
    (hauth : authPasses cfg req) (hhost : req.hostname ≠ [])
    (hvalid : isValidIP (resolveAddress req) = true)
    (hfetch : client.fetch req.hostname = Except.ok (rid, resolveAddress req)) :
    handleDynDNSUpdate cfg req client =
      ⟨200, str "nochg " ++ resolveAddress req, 1, []⟩ := by
  rw [handle_eq_afterAuth cfg req client hauth]
  unfold afterAuth
  simp [hhost, hvalid, hfetch]

/-- Closed instance of claim C1: unchanged address `1.1.1.1` yields
`nochg 1.1.1.1`, status 200, zero update calls. -/
theorem claim_c1_nochg_without_update_witness :
    handleDynDNSUpdate ⟨[], []⟩
      ⟨str "test.example.com", str "1.1.1.1", [], [], [], str "peer"⟩
      ⟨fun _ => Except.ok (str "rec123", str "1.1.1.1"), fun _ _ _ => none⟩ =
      ⟨200, str "nochg 1.1.1.1", 1, []⟩ := by
  have h := claim_c1_nochg_without_update ⟨[], []⟩
    ⟨str "test.example.com", str "1.1.1.1", [], [], [], str "peer"⟩
    ⟨fun _ => Except.ok (str "rec123", str "1.1.1.1"), fun _ _ _ => none⟩
    (str "rec123") (Or.inl rfl) (by decide) (by decide) rfl
  rw [h]
  decide

/-- Claim C2: for every update request that passes authentication and
validation, if the fetched record's address differs from the target
address, the handler issues exactly one update call carrying the record id
returned by the fetch, the request's hostname, and the target address, and
on success responds `good <address>` with HTTP status 200. -/
theorem claim_c2_good_after_single_update
    (cfg : Config) (req : Request) (client : ClientBehavior) (rid cur : Str)
    (hauth : authPasses cfg req) (hhost : req.hostname ≠ [])
    (hvalid : isValidIP (resolveAddress req) = true)
    (hfetch : client.fetch req.hostname = Except.ok (rid, cur))
    (hne : cur ≠ resolveAddress req) :
    (handleDynDNSUpdate cfg req client).updateCalls =
        [(rid, req.hostname, resolveAddress req)]
    ∧ (client.update rid req.hostname (resolveAddress req) = none →
        handleDynDNSUpdate cfg req client =
          ⟨200, str "good " ++ resolveAddress req, 1,
            [(rid, req.hostname, resolveAddress req)]⟩) := by
  rw [handle_eq_afterAuth cfg req client hauth]
  unfold afterAuth
  constructor
  · cases hupd : client.update rid req.hostname (resolveAddress req) <;>
      simp [hhost, hvalid, hfetch, hne, hupd]
  · intro hupd
    simp [hhost, hvalid, hfetch, hne, hupd]

/-- Closed instance of claim C2: remote `1.1.1.1`, target `1.2.3.4` yields
`good 1.2.3.4`, status 200, exactly one update call with record id
`rec123`. -/
theorem claim_c2_good_after_single_update_witness :
    handleDynDNSUpdate ⟨[], []⟩
      ⟨str "test.example.com", str "1.2.3.4", [], [], [], str "peer"⟩
      ⟨fun _ => Except.ok (str "rec123", str "1.1.1.1"), fun _ _ _ => none⟩ =
      ⟨200, str "good 1.2.3.4", 1,
        [(str "rec123", str "test.example.com", str "1.2.3.4")]⟩ := by
  have h := (claim_c2_good_after_single_update ⟨[], []⟩
    ⟨str "test.example.com", str "1.2.3.4", [], [], [], str "peer"⟩
    ⟨fun _ => Except.ok (str "rec123", str "1.1.1.1"), fun _ _ _ => none⟩
    (str "rec123") (str "1.1.1.1") (Or.inl rfl) (by decide) (by decide)
    rfl (by decide)).2 rfl
  rw [h]
  decide

/-- Claim C7: for every request to the update endpoint that passes the
authentication gate and has an empty or missing hostname parameter, the
response is `notfqdn` with HTTP status 400 regardless of all other
parameters, and no provider call is made. -/
theorem claim_c7_notfqdn_on_missing_hostname
    (cfg : Config) (req : Request) (client : ClientBehavior)
    (hauth : authPasses cfg req) (hhost : req.hostname = []) :
    handleDynDNSUpdate cfg req client = ⟨400, str "notfqdn", 0, []⟩ := by
  rw [handle_eq_afterAuth cfg req client hauth]
  unfold afterAuth
  simp [hhost]

/-- Closed instance of claim C7: empty hostname with all other parameters
supplied yields `notfqdn`, status 400, no provider traffic. -/
theorem claim_c7_notfqdn_on_missing_hostname_witness :
    handleDynDNSUpdate ⟨[], []⟩
      ⟨[], str "1.2.3.4", [], [], [], str "peer"⟩
      ⟨fun _ => Except.ok (str "rec123", str "1.1.1.1"), fun _ _ _ => none⟩ =
      ⟨400, str "notfqdn", 0, []⟩ :=
  claim_c7_notfqdn_on_missing_hostname ⟨[], []⟩
    ⟨[], str "1.2.3.4", [], [], [], str "peer"⟩
    ⟨fun _ => Except.ok (str "rec123", str "1.1.1.1"), fun _ _ _ => none⟩
    (Or.inl rfl) rfl

/-- The post-authentication pipeline never reads the Authorization header. -/
theorem afterAuth_ignores_authorization (req : Request) (client : ClientBehavior)
    (a : List Nat) :
    afterAuth { req with authorization := a } client = afterAuth req client := rfl

/-- Claim C3: Basic Authentication is enforced on the update endpoint if
and only if both the configured username and the configured password are
non-empty; when enforced, any request with absent, malformed, or mismatched
credentials receives `badauth` with HTTP status 401 and no DNS Provider
Client call is made; when either configured credential is empty,
authentication is disabled entirely (the outcome is independent of the
presented credentials). -/
theorem claim_c3_basic_auth_gate :
    (∀ (cfg : Config) (req : Request) (client : ClientBehavior),
      cfg.basicAuthUsername ≠ [] → cfg.basicAuthPassword ≠ [] →
      checkBasicAuth cfg req.authorization = false →
      handleDynDNSUpdate cfg req client = ⟨401, str "badauth", 0, []⟩)
    ∧ (∀ (cfg : Config) (req : Request) (client : ClientBehavior) (a1 a2 : List Nat),
      cfg.basicAuthUsername = [] ∨ cfg.basicAuthPassword = [] →
      handleDynDNSUpdate cfg { req with authorization := a1 } client =
        handleDynDNSUpdate cfg { req with authorization := a2 } client) := by
  constructor
  · intro cfg req client hu hp hcheck
    simp [handleDynDNSUpdate, hu, hp, hcheck]
  · intro cfg req client a1 a2 h
    have gate : ¬ (cfg.basicAuthUsername ≠ [] ∧ cfg.basicAuthPassword ≠ []) := by
      rcases h with h | h <;> simp [h]
    simp only [handleDynDNSUpdate, if_neg gate]
    exact (afterAuth_ignores_authorization req client a1).trans
      (afterAuth_ignores_authorization req client a2).symm

/-- Closed instance of claim C3: with credentials configured, a request
with no Authorization header gets `badauth`, status 401, no provider call;
with an empty configured password, the outcome is the same with and without
the (wrong) header. -/
theorem claim_c3_basic_auth_gate_witness :
    handleDynDNSUpdate ⟨strBytes "user", strBytes "pass"⟩
      ⟨str "test.example.com", str "1.2.3.4", [], [], [], str "peer"⟩
      ⟨fun _ => Except.ok (str "rec123", str "1.1.1.1"), fun _ _ _ => none⟩ =
      ⟨401, str "badauth", 0, []⟩
    ∧ handleDynDNSUpdate ⟨strBytes "user", []⟩
        ⟨str "test.example.com", str "1.2.3.4", strBytes "Basic nonsense", [], [],
          str "peer"⟩
        ⟨fun _ => Except.ok (str "rec123", str "1.1.1.1"), fun _ _ _ => none⟩ =
      handleDynDNSUpdate ⟨strBytes "user", []⟩
        ⟨str "test.example.com", str "1.2.3.4", [], [], [], str "peer"⟩
        ⟨fun _ => Except.ok (str "rec123", str "1.1.1.1"), fun _ _ _ => none⟩ :=
  ⟨claim_c3_basic_auth_gate.1 ⟨strBytes "user", strBytes "pass"⟩
      ⟨str "test.example.com", str "1.2.3.4", [], [], [], str "peer"⟩
      ⟨fun _ => Except.ok (str "rec123", str "1.1.1.1"), fun _ _ _ => none⟩
      (by decide) (by decide) (by decide),
   claim_c3_basic_auth_gate.2 ⟨strBytes "user", []⟩
      ⟨str "test.example.com", str "1.2.3.4", [], [], [], str "peer"⟩
      ⟨fun _ => Except.ok (str "rec123", str "1.1.1.1"), fun _ _ _ => none⟩
      (strBytes "Basic nonsense") [] (Or.inr rfl)⟩

/-- Claim C4: the response to a failed fetch is `911` with status 500 and
no update call; a failed update also yields `911` with status 500; and
every request performs at most one remote read and at most one remote
write, with nothing issued after a failing call. -/
theorem claim_c4_failure_paths_and_call_bounds
    (cfg : Config) (req : Request) (client : ClientBehavior) :
    ((handleDynDNSUpdate cfg req client).fetchCalls ≤ 1 ∧
      (handleDynDNSUpdate cfg req client).updateCalls.length ≤ 1)
    ∧ (∀ e, client.fetch req.hostname = Except.error e →
        (handleDynDNSUpdate cfg req client).fetchCalls = 1 →
        handleDynDNSUpdate cfg req client = ⟨500, str "911", 1, []⟩)
    ∧ (∀ rid h ip e,
        (handleDynDNSUpdate cfg req client).updateCalls = [(rid, h, ip)] →
        client.update rid h ip = some e →
        (handleDynDNSUpdate cfg req client).status = 500 ∧
          (handleDynDNSUpdate cfg req client).body = str "911") := by
  have hcases : handleDynDNSUpdate cfg req client = ⟨401, str "badauth", 0, []⟩ ∨
      handleDynDNSUpdate cfg req client = afterAuth req client := by
    unfold handleDynDNSUpdate
    split
    · split
      · exact Or.inl rfl
      · exact Or.inr rfl
    · exact Or.inr rfl
  rcases hcases with hh | hh <;> rw [hh]
  · refine ⟨⟨by simp, by simp⟩, ?_, ?_⟩
    · intro e _ hfc
      simp at hfc
    · intro rid h ip e hcalls
      simp at hcalls
  · by_cases h1 : req.hostname = []
    · simp [afterAuth, h1]
    · by_cases h2 : isValidIP (resolveAddress req) = false
      · simp [afterAuth, h1, h2]
      · cases hfe : client.fetch req.hostname with
        | error e => simp [afterAuth, h1, h2, hfe]
        | ok pr =>
          obtain ⟨rid0, cur0⟩ := pr
          by_cases h3 : cur0 = resolveAddress req
          · simp [afterAuth, h1, h2, hfe, h3]
          · cases hup : client.update rid0 req.hostname (resolveAddress req) with
            | some e0 => simp [afterAuth, h1, h2, hfe, h3, hup]
            | none =>
              simp only [afterAuth, h1, h2, hfe, h3, hup, if_neg, if_false]
              refine ⟨⟨by simp, by simp⟩, ?_, ?_⟩
              · intro e hfetch _
                simp [hfe] at hfetch
              · intro rid h ip e hcalls hsome
                have e123 : rid0 = rid ∧ req.hostname = h ∧ resolveAddress req = ip := by
                  simpa using hcalls
                obtain ⟨e1, e2, e3⟩ := e123
                rw [← e1, ← e2, ← e3, hup] at hsome
                cases hsome

/-- Closed instance of claim C4: a failing fetch yields `911`, status 500,
one read and zero writes; a failing update yields `911`, status 500. -/
theorem claim_c4_failure_paths_and_call_bounds_witness :
    handleDynDNSUpdate ⟨[], []⟩
      ⟨str "test.example.com", str "1.2.3.4", [], [], [], str "peer"⟩
      ⟨fun _ => Except.error (GoError.transport (str "api error")), fun _ _ _ => none⟩ =
      ⟨500, str "911", 1, []⟩
    ∧ (handleDynDNSUpdate ⟨[], []⟩
        ⟨str "test.example.com", str "1.2.3.4", [], [], [], str "peer"⟩
        ⟨fun _ => Except.ok (str "rec123", str "1.1.1.1"),
          fun _ _ _ => some (GoError.transport (str "update error"))⟩).status = 500 :=
  ⟨(claim_c4_failure_paths_and_call_bounds ⟨[], []⟩
      ⟨str "test.example.com", str "1.2.3.4", [], [], [], str "peer"⟩
      ⟨fun _ => Except.error (GoError.transport (str "api error")), fun _ _ _ => none⟩).2.1
      (GoError.transport (str "api error")) rfl (by decide),
   ((claim_c4_failure_paths_and_call_bounds ⟨[], []⟩
      ⟨str "test.example.com", str "1.2.3.4", [], [], [], str "peer"⟩
      ⟨fun _ => Except.ok (str "rec123", str "1.1.1.1"),
        fun _ _ _ => some (GoError.transport (str "update error"))⟩).2.2
      (str "rec123") (str "test.example.com") (str "1.2.3.4")
      (GoError.transport (str "update error")) (by decide) rfl).1⟩

/-- Counterexample to claim C5 as stated: the claim's acceptance predicate
(four non-empty dot-segments, or any colon) accepts `":..."`, but the code
rejects it — with exactly four dot-segments the colon branch is never
reached, and the empty segments condemn the string. -/
theorem claim_c5_counterexample :
    specValidIP (str ":...") = true ∧ isValidIP (str ":...") = false := by decide

/-- Claim C5 (amended): the address-syntax validator accepts a string iff
it decomposes into exactly four dot-separated non-empty segments, or it
does not decompose into four dot-separated segments and contains a colon;
every update request (past the authentication gate, with a hostname) whose
resolved address fails this check receives `badip` with HTTP status 400
and no provider call is made. -/
theorem claim_c5_validator_amended :
    (∀ ip : Str, isValidIP ip = true ↔
      (((ip.splitOn '.').length = 4 ∧ ∀ p ∈ ip.splitOn '.', p ≠ []) ∨
        ((ip.splitOn '.').length ≠ 4 ∧ ':' ∈ ip)))
    ∧ (∀ (cfg : Config) (req : Request) (client : ClientBehavior),
        authPasses cfg req → req.hostname ≠ [] →
        isValidIP (resolveAddress req) = false →
        handleDynDNSUpdate cfg req client = ⟨400, str "badip", 0, []⟩) := by
  constructor
  · intro ip
    unfold isValidIP
    by_cases h : (ip.splitOn '.').length = 4 <;>
      simp [h, List.isEmpty_iff, List.elem_iff, List.contains]
  · intro cfg req client hauth hhost hbad
    rw [handle_eq_afterAuth cfg req client hauth]
    unfold afterAuth
    simp [hhost, hbad]

/-- Closed instance of amended claim C5: `"invalid"` fails the validator
and draws `badip`, status 400, with no provider traffic; `"1.2.3.4"` and
`":"` pass the characterization. -/
theorem claim_c5_validator_amended_witness :
    isValidIP (str "1.2.3.4") = true
    ∧ handleDynDNSUpdate ⟨[], []⟩
        ⟨str "test.example.com", str "invalid", [], [], [], str "peer"⟩
        ⟨fun _ => Except.ok (str "rec123", str "1.1.1.1"), fun _ _ _ => none⟩ =
        ⟨400, str "badip", 0, []⟩ :=
  ⟨(claim_c5_validator_amended.1 (str "1.2.3.4")).mpr (by decide),
   claim_c5_validator_amended.2 ⟨[], []⟩
      ⟨str "test.example.com", str "invalid", [], [], [], str "peer"⟩
      ⟨fun _ => Except.ok (str "rec123", str "1.1.1.1"), fun _ _ _ => none⟩
      (Or.inl rfl) (by decide) (by decide)⟩

/-- Claim C6: with no supplied address, the target address is derived in
strict priority order — the first comma-separated entry of X-Forwarded-For
trimmed of whitespace when that header is non-empty, otherwise X-Real-IP
verbatim when non-empty, otherwise the connection peer address with the
port suffix (everything from the last colon on) stripped. -/
theorem claim_c6_address_derivation (req : Request) (hmy : req.myip = []) :
    resolveAddress req = getClientIP req.xForwardedFor req.xRealIP req.remoteAddr
    ∧ (req.xForwardedFor ≠ [] →
        resolveAddress req = goTrimSpace ((req.xForwardedFor.splitOn ',').headD []))
    ∧ (req.xForwardedFor = [] → req.xRealIP ≠ [] → resolveAddress req = req.xRealIP)
    ∧ (req.xForwardedFor = [] → req.xRealIP = [] →
        resolveAddress req = trimPortSuffix req.remoteAddr) := by
  refine ⟨by simp [resolveAddress, hmy], ?_, ?_, ?_⟩
  · intro hf
    simp [resolveAddress, hmy, getClientIP, hf]
  · intro hf hr
    simp [resolveAddress, hmy, getClientIP, hf, hr]
  · intro hf hr
    simp [resolveAddress, hmy, getClientIP, hf, hr]

/-- Closed instances of claim C6, the spec's three scenarios: both headers
present picks the trimmed first forwarded entry; only X-Real-IP present
picks it verbatim; neither present strips the port from the peer
address. -/
theorem claim_c6_address_derivation_witness :
    resolveAddress ⟨str "h", [], [], str "10.0.0.1, 10.0.0.2", str "10.0.0.3",
        str "192.168.1.1:12345"⟩ = str "10.0.0.1"
    ∧ resolveAddress ⟨str "h", [], [], [], str "10.0.0.3",
        str "192.168.1.1:12345"⟩ = str "10.0.0.3"
    ∧ resolveAddress ⟨str "h", [], [], [], [],
        str "192.168.1.1:12345"⟩ = str "192.168.1.1" := by
  refine ⟨?_, ?_, ?_⟩
  · have h := (claim_c6_address_derivation ⟨str "h", [], [],
      str "10.0.0.1, 10.0.0.2", str "10.0.0.3", str "192.168.1.1:12345"⟩ rfl).2.1
      (by decide)
    rw [h]
    decide
  · have h := (claim_c6_address_derivation ⟨str "h", [], [], [],
      str "10.0.0.3", str "192.168.1.1:12345"⟩ rfl).2.2.1 rfl (by decide)
    rw [h]
  · have h := (claim_c6_address_derivation ⟨str "h", [], [], [], [],
      str "192.168.1.1:12345"⟩ rfl).2.2.2 rfl rfl
    rw [h]
    decide

/-- Claim C8: the fetch operation fails with a provider error when the
envelope's success flag is false (this takes precedence), fails with a
not-found error when the provider returns zero matching records, and
otherwise returns the id and address content of the first record in the
provider-returned list, even when multiple records match. -/
theorem claim_c8_fetch_selection (h : Str) (resp : CloudflareListResponse) :
    (resp.success = false →
      ∃ m, GetDNSRecord h resp = Except.error (GoError.providerErr m))
    ∧ (resp.success = true → resp.result = [] →
        GetDNSRecord h resp = Except.error (GoError.notFound h))
    ∧ (∀ r rest, resp.success = true → resp.result = r :: rest →
        GetDNSRecord h resp = Except.ok (r.id, r.content)) := by
  refine ⟨?_, ?_, ?_⟩
  · intro hs
    cases herr : resp.errors with
    | nil =>
      exact ⟨str "cloudflare API returned error", by simp [GetDNSRecord, hs, herr]⟩
    | cons e es =>
      exact ⟨str "cloudflare API error: " ++ e.message,
        by simp [GetDNSRecord, hs, herr]⟩
  · intro hs hr
    simp [GetDNSRecord, hs, hr]
  · intro r rest hs hr
    simp [GetDNSRecord, hs, hr]

/-- Closed instance of claim C8: a success envelope holding two records
yields the first record's id and content; an empty success envelope is
not-found; a failure envelope is a provider error. -/
theorem claim_c8_fetch_selection_witness :
    GetDNSRecord (str "a.example.com")
      ⟨true, [], [⟨str "id1", str "a.example.com", str "1.1.1.1", 1, false⟩,
          ⟨str "id2", str "a.example.com", str "2.2.2.2", 1, false⟩]⟩ =
      Except.ok (str "id1", str "1.1.1.1")
    ∧ GetDNSRecord (str "a.example.com") ⟨true, [], []⟩ =
      Except.error (GoError.notFound (str "a.example.com"))
    ∧ ∃ m, GetDNSRecord (str "a.example.com") ⟨false, [⟨9109, str "boom"⟩], []⟩ =
      Except.error (GoError.providerErr m) := by
  refine ⟨?_, ?_, ?_⟩
  · exact (claim_c8_fetch_selection (str "a.example.com")
      ⟨true, [], [⟨str "id1", str "a.example.com", str "1.1.1.1", 1, false⟩,
          ⟨str "id2", str "a.example.com", str "2.2.2.2", 1, false⟩]⟩).2.2
      ⟨str "id1", str "a.example.com", str "1.1.1.1", 1, false⟩
      [⟨str "id2", str "a.example.com", str "2.2.2.2", 1, false⟩] rfl rfl
  · exact (claim_c8_fetch_selection (str "a.example.com")
      ⟨true, [], []⟩).2.1 rfl rfl
  · exact (claim_c8_fetch_selection (str "a.example.com")
      ⟨false, [⟨9109, str "boom"⟩], []⟩).1 rfl

/-- Dropping the maximal colon-free suffix of a reversed string containing
a colon exposes that colon. -/
theorem dropWhile_ne_colon_decomp (r : List Char) (h : ':' ∈ r) :
    ∃ t rest, r = t ++ ':' :: rest ∧ (∀ c ∈ t, c ≠ ':') ∧
      r.dropWhile (fun c => c != ':') = ':' :: rest := by
  induction r with
  | nil => cases h
  | cons c cs ih =>
    by_cases hc : c = ':'
    · subst hc
      exact ⟨[], cs, rfl, by simp, by simp [List.dropWhile_cons]⟩
    · have h' : ':' ∈ cs := by
        rcases List.mem_cons.mp h with h0 | h0
        · exact absurd h0.symm hc
        · exact h0
      obtain ⟨t, rest, e1, e2, e3⟩ := ih h'
      refine ⟨c :: t, rest, by rw [e1]; rfl, ?_, ?_⟩
      · intro x hx
        rcases List.mem_cons.mp hx with h0 | h0
        · subst h0; exact hc
        · exact e2 x h0
      · simp [List.dropWhile_cons, hc, e3]

/-- `trimPortSuffix` of a string containing a colon keeps exactly the part
before the last colon. -/
theorem trimPortSuffix_eq_of_mem (s : Str) (h : ':' ∈ s) :
    ∃ pre post, s = pre ++ ':' :: post ∧ ':' ∉ post ∧ trimPortSuffix s = pre := by
  have hr : ':' ∈ s.reverse := by simpa using h
  obtain ⟨t, rest, e1, e2, e3⟩ := dropWhile_ne_colon_decomp s.reverse hr
  refine ⟨rest.reverse, t.reverse, ?_, ?_, ?_⟩
  · have hss : s = s.reverse.reverse := (List.reverse_reverse s).symm
    rw [hss, e1]
    simp
  · intro hm
    have : ':' ∈ t := by simpa using hm
    exact (e2 ':' this) rfl
  · unfold trimPortSuffix
    rw [e3]

/-- A colon-containing, dot-free string passes `isValidIP` via the colon
branch. -/
theorem isValidIP_of_colon_no_dot (s : Str) (hc : ':' ∈ s) (hd : '.' ∉ s) :
    isValidIP s = true := by
  have hsplit : s.splitOn '.' = [s] := by
    unfold List.splitOn
    apply List.splitOnP_eq_single
    intro x hx
    simp only [beq_iff_eq]
    intro hxe
    exact hd (hxe ▸ hx)
  unfold isValidIP
  rw [hsplit]
  simp [hc]

/-- With at least two colons in the peer address, the truncation at the
last colon still contains a colon. -/
theorem colon_mem_trimPortSuffix (ra : Str) (h2 : 2 ≤ ra.count ':') :
    ':' ∈ trimPortSuffix ra := by
  have hmem : ':' ∈ ra := by
    have : 0 < ra.count ':' := by omega
    exact List.count_pos_iff.mp this
  obtain ⟨pre, post, e1, e2, e3⟩ := trimPortSuffix_eq_of_mem ra hmem
  rw [e3]
  have hcp : post.count ':' = 0 := List.count_eq_zero.mpr e2
  have e4 : (pre ++ ':' :: post).count ':' = pre.count ':' + post.count ':' + 1 := by
    simp [List.count_append, List.count_cons]
    omega
  rw [e1, e4, hcp] at h2
  exact List.count_pos_iff.mp (by omega)

/-- Claim C9: with no supplied address and neither forwarding header, the
derived address is the peer address truncated at its last colon whenever a
colon is present; with at least two colons (every bracketless IPv6 literal)
the truncated value retains a colon, and when it is dot-free it passes
address validation; in particular `"::1"` derives `":"`, which is accepted
and used as the target address. -/
theorem claim_c9_last_colon :
    (∀ ra : Str, ':' ∈ ra →
      ∃ pre post, ra = pre ++ ':' :: post ∧ ':' ∉ post ∧
        getClientIP [] [] ra = pre)
    ∧ (∀ ra : Str, 2 ≤ ra.count ':' → ':' ∈ getClientIP [] [] ra)
    ∧ (∀ ra : Str, 2 ≤ ra.count ':' → '.' ∉ getClientIP [] [] ra →
        isValidIP (getClientIP [] [] ra) = true)
    ∧ (getClientIP [] [] (str "::1") = str ":" ∧ isValidIP (str ":") = true ∧
        resolveAddress ⟨str "host", [], [], [], [], str "::1"⟩ = str ":") := by
  have hg : ∀ ra : Str, getClientIP [] [] ra = trimPortSuffix ra := by
    intro ra
    simp [getClientIP]
  refine ⟨?_, ?_, ?_, by decide⟩
  · intro ra h
    rw [hg]
    exact trimPortSuffix_eq_of_mem ra h
  · intro ra h2
    rw [hg]
    exact colon_mem_trimPortSuffix ra h2
  · intro ra h2 hd
    rw [hg] at hd ⊢
    exact isValidIP_of_colon_no_dot _ (colon_mem_trimPortSuffix ra h2) hd

/-- Closed instances of claim C9: `"::1"` decomposes at its last colon; the
portless IPv6 peer `"2001:db8::7"` derives a colon-retaining, validated
address. -/
theorem claim_c9_last_colon_witness :
    (∃ pre post, str "::1" = pre ++ ':' :: post ∧ ':' ∉ post ∧
      getClientIP [] [] (str "::1") = pre)
    ∧ ':' ∈ getClientIP [] [] (str "2001:db8::7")
    ∧ isValidIP (getClientIP [] [] (str "2001:db8::7")) = true :=
  ⟨claim_c9_last_colon.1 (str "::1") (by decide),
   claim_c9_last_colon.2.1 (str "2001:db8::7") (by decide),
   claim_c9_last_colon.2.2.1 (str "2001:db8::7") (by decide) (by decide)⟩

/-- Decoding a standard-alphabet digit recovers its 6-bit value. -/
theorem b64Index_b64Char : ∀ n : Nat, n < 64 → b64Index (b64Char n) = some n := by
  decide

/-- Digits produced by the encoder are never carriage return, newline, or
the padding byte. -/
theorem b64Char_props (n : Nat) :
    b64Char n ≠ 13 ∧ b64Char n ≠ 10 ∧ b64Char n ≠ 61 := by
  unfold b64Char
  repeat' split
  all_goals omega

/-- Every byte of an encoded string survives the decoder's newline
filter. -/
theorem filter_base64Encode (bs : List Nat) :
    (base64Encode bs).filter (fun c => !(c == 13 || c == 10)) = base64Encode bs := by
  apply List.filter_eq_self.mpr
  intro a ha
  have hne : a ≠ 13 ∧ a ≠ 10 := by
    induction bs using base64Encode.induct with
    | case1 => cases ha
    | case2 b1 =>
      simp only [base64Encode, List.mem_cons, List.not_mem_nil, or_false] at ha
      rcases ha with rfl | rfl | rfl | rfl
      · exact ⟨(b64Char_props _).1, (b64Char_props _).2.1⟩
      · exact ⟨(b64Char_props _).1, (b64Char_props _).2.1⟩
      · exact ⟨by omega, by omega⟩
      · exact ⟨by omega, by omega⟩
    | case3 b1 b2 =>
      simp only [base64Encode, List.mem_cons, List.not_mem_nil, or_false] at ha
      rcases ha with rfl | rfl | rfl | rfl
      · exact ⟨(b64Char_props _).1, (b64Char_props _).2.1⟩
      · exact ⟨(b64Char_props _).1, (b64Char_props _).2.1⟩
      · exact ⟨(b64Char_props _).1, (b64Char_props _).2.1⟩
      · exact ⟨by omega, by omega⟩
    | case4 b1 b2 b3 rest ih =>
      simp only [base64Encode, List.mem_cons] at ha
      rcases ha with rfl | rfl | rfl | rfl | h
      · exact ⟨(b64Char_props _).1, (b64Char_props _).2.1⟩
      · exact ⟨(b64Char_props _).1, (b64Char_props _).2.1⟩
      · exact ⟨(b64Char_props _).1, (b64Char_props _).2.1⟩
      · exact ⟨(b64Char_props _).1, (b64Char_props _).2.1⟩
      · exact ih h
  simp [hne.1, hne.2]

/-- The quantum decoder inverts the encoder on byte input. -/
theorem b64DecodeChunks_base64Encode (bs : List Nat) (h : ∀ b ∈ bs, b < 256) :
    b64DecodeChunks (base64Encode bs) = some bs := by
  induction bs using base64Encode.induct with
  | case1 => rfl
  | case2 b1 =>
    have hb1 : b1 < 256 := h b1 (by simp)
    have i1 := b64Index_b64Char (b1 / 4) (by omega)
    have i2 := b64Index_b64Char (b1 % 4 * 16) (by omega)
    simp only [base64Encode, b64DecodeChunks, i1, i2]
    simp
    omega
  | case3 b1 b2 =>
    have hb1 : b1 < 256 := h b1 (by simp)
    have hb2 : b2 < 256 := h b2 (by simp)
    have i1 := b64Index_b64Char (b1 / 4) (by omega)
    have i2 := b64Index_b64Char (b1 % 4 * 16 + b2 / 16) (by omega)
    have i3 := b64Index_b64Char (b2 % 16 * 4) (by omega)
    have hc3 := (b64Char_props (b2 % 16 * 4)).2.2
    simp only [base64Encode, b64DecodeChunks, i1, i2, i3, if_neg hc3]
    simp
    constructor <;> omega
  | case4 b1 b2 b3 rest ih =>
    have hb1 : b1 < 256 := h b1 (by simp)
    have hb2 : b2 < 256 := h b2 (by simp)
    have hb3 : b3 < 256 := h b3 (by simp)
    have hrest : ∀ b ∈ rest, b < 256 := by
      intro b hb
      exact h b (by simp [hb])
    have i1 := b64Index_b64Char (b1 / 4) (by omega)
    have i2 := b64Index_b64Char (b1 % 4 * 16 + b2 / 16) (by omega)
    have i3 := b64Index_b64Char (b2 % 16 * 4 + b3 / 64) (by omega)
    have i4 := b64Index_b64Char (b3 % 64) (by omega)
    have hc3 := (b64Char_props (b2 % 16 * 4 + b3 / 64)).2.2
    have hc4 := (b64Char_props (b3 % 64)).2.2
    simp only [base64Encode, b64DecodeChunks, i1, i2, i3, i4, if_neg hc3,
      if_neg hc4, ih hrest]
    simp
    refine ⟨?_, ?_, ?_⟩ <;> omega

/-- Go's decoder inverts Go's encoder on byte input. -/
theorem base64Decode_base64Encode (bs : List Nat) (h : ∀ b ∈ bs, b < 256) :
    base64Decode (base64Encode bs) = some bs := by
  unfold base64Decode
  rw [filter_base64Encode]
  exact b64DecodeChunks_base64Encode bs h

/-- A colon-free byte string has no first colon to split at. -/
theorem splitFirstColon_of_not_mem (l : List Nat) (h : 58 ∉ l) :
    splitFirstColon l = none := by
  induction l with
  | nil => rfl
  | cons b rest ih =>
    have hb : b ≠ 58 := fun e => h (by simp [e])
    have ih' := ih (fun m => h (List.mem_cons_of_mem _ m))
    simp [splitFirstColon, hb, ih']

/-- Splitting at the first colon of `u ++ 58 :: p` recovers `u` and `p`
when `u` is colon-free. -/
theorem splitFirstColon_append (u p : List Nat) (h : 58 ∉ u) :
    splitFirstColon (u ++ 58 :: p) = some (u, p) := by
  induction u with
  | nil => simp [splitFirstColon]
  | cons b rest ih =>
    have hb : b ≠ 58 := fun e => h (by simp [e])
    have ih' := ih (fun m => h (List.mem_cons_of_mem _ m))
    simp [splitFirstColon, hb, ih']

/-- Counterexample to claim C10 as stated: with configured username `a:b`
(itself containing a colon) and password `c:d`, a client presenting
exactly `username:password` in Basic form is rejected, because the split
at the first colon yields `a`, not `a:b`. -/
theorem claim_c10_counterexample :
    58 ∈ strBytes "c:d" ∧
    checkBasicAuth ⟨strBytes "a:b", strBytes "c:d"⟩
      (basicScheme ++ base64Encode (strBytes "a:b" ++ 58 :: strBytes "c:d")) =
      false := by
  decide

/-- Claim C10 (amended): the Basic Authentication check splits the decoded
credentials on the first colon only, so — provided the configured username
contains no colon — for every configured password containing colons a
client presenting `username:that-password` authenticates successfully,
while any decoded credential string containing no colon at all is
rejected. -/
theorem claim_c10_split_first_colon_amended :
    (∀ u p : List Nat, (∀ b ∈ u, b < 256) → (∀ b ∈ p, b < 256) →
      58 ∉ u → 58 ∈ p →
      checkBasicAuth ⟨u, p⟩ (basicScheme ++ base64Encode (u ++ 58 :: p)) = true)
    ∧ (∀ (cfg : Config) (auth creds : List Nat),
        base64Decode (auth.drop 6) = some creds → 58 ∉ creds →
        checkBasicAuth cfg auth = false) := by
  constructor
  · intro u p hu hp hcu _
    have hbytes : ∀ b ∈ u ++ 58 :: p, b < 256 := by
      intro b hb
      rcases List.mem_append.mp hb with h | h
      · exact hu b h
      · rcases List.mem_cons.mp h with rfl | h
        · omega
        · exact hp b h
    have hdec := base64Decode_base64Encode (u ++ 58 :: p) hbytes
    have hne : basicScheme ++ base64Encode (u ++ 58 :: p) ≠ [] := by
      simp [basicScheme]
    have hpre : basicScheme.isPrefixOf
        (basicScheme ++ base64Encode (u ++ 58 :: p)) = true := by
      rw [List.isPrefixOf_iff_prefix]
      exact List.prefix_append _ _
    have hdrop : (basicScheme ++ base64Encode (u ++ 58 :: p)).drop 6 =
        base64Encode (u ++ 58 :: p) := by
      simp [basicScheme]
    unfold checkBasicAuth
    rw [if_neg hne, if_neg (by simp [hpre]), hdrop, hdec]
    simp [splitFirstColon_append u p hcu]
  · intro cfg auth creds hdec hnc
    unfold checkBasicAuth
    by_cases h0 : auth = []
    · simp [h0]
    · rw [if_neg h0]
      by_cases h1 : basicScheme.isPrefixOf auth
      · rw [if_neg (by simp [h1]), hdec]
        simp [splitFirstColon_of_not_mem creds hnc]
      · rw [if_pos (by simp [h1])]

/-- Closed instances of amended claim C10: username `user` with
colon-bearing password `pa:ss:wd` authenticates via the first-colon split;
credentials decoding to the colon-free string `nocolon` are rejected. -/
theorem claim_c10_split_first_colon_amended_witness :
    checkBasicAuth ⟨strBytes "user", strBytes "pa:ss:wd"⟩
      (basicScheme ++ base64Encode (strBytes "user" ++ 58 :: strBytes "pa:ss:wd")) =
      true
    ∧ checkBasicAuth ⟨strBytes "user", strBytes "pass"⟩
        (basicScheme ++ base64Encode (strBytes "nocolon")) = false :=
  ⟨claim_c10_split_first_colon_amended.1 (strBytes "user") (strBytes "pa:ss:wd")
      (by decide) (by decide) (by decide) (by decide),
   claim_c10_split_first_colon_amended.2 ⟨strBytes "user", strBytes "pass"⟩
      (basicScheme ++ base64Encode (strBytes "nocolon")) (strBytes "nocolon")
      (by decide) (by decide)⟩

end DynDNS
